import Mathlib

/-!
Verification of the container codec implemented in `file/file.go` of the
go-tmg2 repository.

The byte streams of the Go code are modelled as lists of naturals (one
entry per byte), readers as functions consuming such a list, and writers
as the list of bytes they have received.  Machine integers are modelled
as `Nat`/`Int` with explicit reduction modulo `2 ^ 64` (`wrap64`,
`goUint64`) where Go overflow semantics matter.  The gzip compressor and
decompressor are external collaborators of the codec (the spec treats
them as opaque streaming components); functions that use them take the
compressor (`compress : List Nat → List Nat`, the total byte stream the
gzip writer emits for a given payload) or the decompressor constructor
(`newReader : List Nat → Option (List Nat)`, which fails on inputs whose
leading bytes are not valid framing and otherwise yields the stream of
decompressed bytes) as explicit parameters.
-/

/-- Error values surfaced by the codec, named after the failure taxonomy
of the specification.  The Go source produces them with `fmt.Errorf` or
`io.EOF`. -/
inductive GoErr where
  | invalidArgument
  | badMagic
  | eof
  deriving DecidableEq, Repr

/-- Decidable equality for `Except`, so that concrete runs of the
fallible codec functions can be checked by `decide`. -/
instance {ε α : Type} [DecidableEq ε] [DecidableEq α] : DecidableEq (Except ε α) :=
  fun x y =>
    match x, y with
    | .ok a, .ok b => decidable_of_iff (a = b) (by simp)
    | .error a, .error b => decidable_of_iff (a = b) (by simp)
    | .ok _, .error _ => .isFalse (by simp)
    | .error _, .ok _ => .isFalse (by simp)

/-- Outcome of a Go call: a normal value, a returned error, or a runtime
panic (`panicked` models both an explicit `panic(...)` call and a nil
pointer dereference fault). -/
inductive GoResult (α : Type) where
  | ok (a : α)
  | err (e : GoErr)
  | panicked
  deriving DecidableEq, Repr

/-- Model of `time.Time` as the codec uses it: whole seconds and
nanoseconds relative to the Unix epoch.  `time.Unix(sec, nsec)`
corresponds to `⟨sec, nsec⟩`; a normalized value has
`0 ≤ nsec < 1000000000`. -/
structure GoTime where
  sec : Int
  nsec : Int
  deriving DecidableEq, Repr

/-- Reduce an unbounded integer to the value a Go `int64` holds after
two-complement wrap-around. -/
def wrap64 (x : Int) : Int := (x + 2 ^ 63) % 2 ^ 64 - 2 ^ 63

/-- Go conversion `uint(x)` of a signed 64-bit value (64-bit platform):
the residue modulo `2 ^ 64`, as a natural number. -/
def goUint64 (x : Int) : Nat := (x % 2 ^ 64).toNat

/-- Model of `time.Time.UnixNano()`: seconds and nanoseconds combined,
wrapped to the signed 64-bit range exactly as Go computes it. -/
def GoTime.UnixNano (t : GoTime) : Int := wrap64 (t.sec * 1000000000 + t.nsec)

/-- The metadata record of a stored file (`FileHeader` in the source).
`ApiKeyID` is a `uint8` in Go; the bound `< 256` is carried as a
hypothesis in the theorems that need it.  Go strings are byte sequences
and are modelled as lists of bytes. -/
structure FileHeader where
  UploadDate : GoTime
  ApiKeyID : Nat
  MimeType : List Nat
  OriginalName : List Nat
  deriving DecidableEq, Repr

/-- The read mode selector of a handle (`ReadMode` in the source). -/
inductive ReadMode where
  | DecompressReadMode
  | RawReadMode
  deriving DecidableEq, Repr

/-- An opened file (`FileHandle` in the source).  `decompressSource`
is `none` until `SetReadMode` constructs the decompressor, and
afterwards holds the remaining stream of decompressed bytes.
`rawSource` holds the remaining raw (compressed) bytes of the
container.  `currentSource` is the source reads are delegated to and is
`none` exactly when the Go field is nil (before any `SetReadMode` call).
The consumption of `rawSource` that the real gzip reader performs while
decompressed bytes are read is not modelled; no claim observes raw reads
issued after decompressed reads. -/
structure FileHandle where
  Header : FileHeader
  decompressSource : Option (List Nat)
  rawSource : List Nat
  currentSource : Option ReadMode
  deriving DecidableEq, Repr

/-- Model of one Go `Read(p)` call with `len(p) = k` into a fresh
zero-initialized buffer, over a `bytes.Reader`/`bytes.Buffer`-style
stream holding `l`: it fails with EOF only when the stream is empty and
`k > 0`; otherwise it copies `min k l.length` bytes and reports no
error, leaving the rest of the buffer at its zero initialization.  The
callers in this codebase ignore the returned byte count, so the result
here is the full `k`-byte buffer contents together with the remaining
stream. -/
def goRead (k : Nat) (l : List Nat) : Except GoErr (List Nat × List Nat) :=
  if l.isEmpty ∧ 0 < k then .error .eof
  else .ok (l.take k ++ List.replicate (k - l.length) 0, l.drop k)

/-- Model of `writeNumber(number, byteCount, out)`: the bytes emitted,
most significant first; `byte(number >> shift)` truncates to the low 8
bits.  The Go function also returns the count written, which equals the
length of this list, and a write error that a buffer-backed writer never
produces. -/
def writeNumber (number : Nat) (byteCount : Nat) : List Nat :=
  (List.range byteCount).map fun i => (number >>> (8 * (byteCount - i - 1))) % 256

/-- Model of `readNumber(byteCount, in)`: a single `Read` into a
`byteCount`-sized buffer (the returned count is ignored by the source),
then big-endian reassembly of the whole buffer with shifts and
bitwise or. -/
def readNumber (byteCount : Nat) (l : List Nat) : Except GoErr (Nat × List Nat) :=
  match goRead byteCount l with
  | .error e => .error e
  | .ok (bytez, rest) =>
      .ok ((List.range byteCount).foldl
        (fun number i => number ||| ((bytez.getD i 0) <<< (8 * (byteCount - i - 1)))) 0, rest)

/-- Model of `writeLengthPrefixedString(str, out)`: 2-byte big-endian
byte length, then the raw bytes. -/
def writeLengthPrefixedString (str : List Nat) : List Nat :=
  writeNumber str.length 2 ++ str

/-- Model of `readLengthPrefixedString(in)`: read the 2-byte length,
then one `Read` into a buffer of that size (count ignored), returning
the string bytes, the consumed size `2 + length` the source reports, and
the remaining stream. -/
def readLengthPrefixedString (l : List Nat) : Except GoErr (List Nat × Nat × List Nat) :=
  match readNumber 2 l with
  | .error e => .error e
  | .ok (length, l2) =>
      match goRead length l2 with
      | .error e => .error e
      | .ok (stringBytes, rest) => .ok (stringBytes, 2 + length, rest)

/-- Model of `bytes.Buffer.ReadByte`: pop the first byte, EOF when
empty. -/
def bufferReadByte (l : List Nat) : Except GoErr (Nat × List Nat) :=
  match l with
  | [] => .error .eof
  | b :: rest => .ok (b, rest)

/-- The temporary header buffer `WriteFile` assembles before framing it:
5-byte big-endian `uint(info.UploadDate.UnixNano() / 10E8)` (the
constant `10E8` is the integer `1000000000`, so this is the whole-second
Unix value, truncated toward zero), one byte for `ApiKeyID`, then the
two length-prefixed strings. -/
def headerBuffer (info : FileHeader) : List Nat :=
  writeNumber (goUint64 ((GoTime.UnixNano info.UploadDate).tdiv 1000000000)) 5
    ++ [info.ApiKeyID]
    ++ writeLengthPrefixedString info.MimeType
    ++ writeLengthPrefixedString info.OriginalName

/-- Model of `WriteFile(dst, info, src)`.  `dst`/`src` are `none` when
the corresponding Go argument is nil; the nil check precedes every
stream operation, as in the source.  The result pairs the returned
`(nWritten, err)` with the byte stream emitted to `dst`: the marker, the
2-byte header length (`writeNumber` truncates it to 16 bits), the header
buffer, and finally the bytes the gzip writer wrapped around `dst`
emits for the payload (`compress s`).  The returned count accumulates,
exactly as the source does, 2 for the marker, the 2 reported by
`writeNumber`, the header length reported by `WriteTo`, and the count
reported by `io.Copy` — which is the number of bytes copied out of
`src`, that is `s.length`, not the size of `compress s`.  List-backed
streams never fail, so the intermediate error returns of the source
cannot fire here. -/
def WriteFile (compress : List Nat → List Nat) (dst : Option Unit) (info : FileHeader)
    (src : Option (List Nat)) : Except GoErr Nat × List Nat :=
  match dst, src with
  | some _, some s =>
      let hb := headerBuffer info
      let nWritten := 2 + (2 + (hb.length + s.length))
      (.ok nWritten, [0xFA, 0xFA] ++ writeNumber hb.length 2 ++ hb ++ compress s)
  | _, _ => (.error .invalidArgument, [])

/-- Model of `ReadFileHeader(src)`: one `Read` of 2 bytes (the magic
check rejects only when the two bytes differ AND the first is not
`0xFA`, exactly as the source condition
`twoBytes[0] != twoBytes[1] && twoBytes[0] != 0xFA` does), the 2-byte
header length, one `Read` of that many bytes, then the field parses out
of that buffer.  `time.Unix(int64(secondsTime), 0)` is modelled by
`wrap64` applied to the 5-byte value (which is below `2 ^ 40`, so the
wrap is the identity on byte-valued streams).  The returned count
`nRead` only ever accumulates the first 2-byte read, as in the
source. -/
def ReadFileHeader (l : List Nat) : Except GoErr (FileHeader × Nat × List Nat) :=
  match goRead 2 l with
  | .error e => .error e
  | .ok (twoBytes, l1) =>
      let nRead := min 2 l.length
      if twoBytes.getD 0 0 ≠ twoBytes.getD 1 0 ∧ twoBytes.getD 0 0 ≠ 0xFA then
        .error .badMagic
      else
        match readNumber 2 l1 with
        | .error e => .error e
        | .ok (headerLength, l2) =>
            match goRead headerLength l2 with
            | .error e => .error e
            | .ok (headerBytes, rest) =>
                match readNumber 5 headerBytes with
                | .error e => .error e
                | .ok (secondsTime, hb1) =>
                    match bufferReadByte hb1 with
                    | .error e => .error e
                    | .ok (apiKey, hb2) =>
                        match readLengthPrefixedString hb2 with
                        | .error e => .error e
                        | .ok (mime, _, hb3) =>
                            match readLengthPrefixedString hb3 with
                            | .error e => .error e
                            | .ok (name, _, _) =>
                                .ok ({ UploadDate := ⟨wrap64 secondsTime, 0⟩,
                                       ApiKeyID := apiKey,
                                       MimeType := mime,
                                       OriginalName := name }, nRead, rest)

/-- Model of `FileHandle.SetReadMode(mode)`.  For decompress mode a
decompressor is constructed only when none exists yet; a construction
failure makes the Go code call `panic(err)` (`SetReadMode` has no error
result), modelled by `.panicked`.  For raw mode the current source is
simply redirected and a previously built decompressor is retained. -/
def FileHandle.SetReadMode (newReader : List Nat → Option (List Nat))
    (handle : FileHandle) (mode : ReadMode) : GoResult FileHandle :=
  match mode with
  | .DecompressReadMode =>
      match handle.decompressSource with
      | none =>
          match newReader handle.rawSource with
          | none => .panicked
          | some decompress =>
              .ok { handle with decompressSource := some decompress,
                                currentSource := some .DecompressReadMode }
      | some _ => .ok { handle with currentSource := some .DecompressReadMode }
  | .RawReadMode => .ok { handle with currentSource := some .RawReadMode }

/-- Model of `ReadFile(src)`: nil check, header parse, then
`SetReadMode(RawReadMode)` on a handle whose raw source is the remaining
stream.  The raw-mode switch never constructs a decompressor, so
`newReader` is not consulted on this path. -/
def ReadFile (newReader : List Nat → Option (List Nat))
    (src : Option (List Nat)) : GoResult FileHandle :=
  match src with
  | none => .err .invalidArgument
  | some l =>
      match ReadFileHeader l with
      | .error e => .err e
      | .ok (header, _, rest) =>
          match FileHandle.SetReadMode newReader
              { Header := header, decompressSource := none,
                rawSource := rest, currentSource := none } .RawReadMode with
          | .ok handle => .ok handle
          | .err e => .err e
          | .panicked => .panicked

/-- Model of `FileHandle.Close()`.  The source unconditionally calls
`handle.decompressSource.Close()`: on a handle whose decompressor was
never constructed this is a method call on a nil `*gzip.Reader`, which
dereferences its receiver and faults (`.panicked`).  Otherwise the error
value of that close (`decompCloseErr`, an environment parameter for the
opaque gzip reader) is discarded, and when the raw source implements
`io.Closer` (`rawCloser = some e` with `e` the result of its `Close`)
that result is returned; when it does not, nil is returned.  The
assignment `handle.currentSource = nil` of the source is unobservable
here and is skipped anyway whenever the raw source is a closer. -/
def FileHandle.Close (handle : FileHandle) (decompCloseErr : Option GoErr)
    (rawCloser : Option (Option GoErr)) : GoResult (Option GoErr) :=
  match handle.decompressSource with
  | none => .panicked
  | some _ =>
      match rawCloser with
      | some e => .ok e
      | none => .ok none

/-- Model of `FileHandle.Read`: delegate one `Read` of `k` bytes to the
current source.  A nil current source (never set) or a nil decompressor
reached through it would fault in Go, modelled by `.panicked`. -/
def FileHandle.Read (handle : FileHandle) (k : Nat) : GoResult (List Nat × FileHandle) :=
  match handle.currentSource with
  | none => .panicked
  | some .RawReadMode =>
      match goRead k handle.rawSource with
      | .error e => .err e
      | .ok (bs, rest) => .ok (bs, { handle with rawSource := rest })
  | some .DecompressReadMode =>
      match handle.decompressSource with
      | none => .panicked
      | some d =>
          match goRead k d with
          | .error e => .err e
          | .ok (bs, rest) => .ok (bs, { handle with decompressSource := some rest })

/-- Reading a handle to end of stream (`io.ReadAll`/`io.Copy` over
`FileHandle.Read`): the remaining bytes of whichever source is
active. -/
def FileHandle.ReadAll (handle : FileHandle) : GoResult (List Nat) :=
  match handle.currentSource with
  | none => .panicked
  | some .RawReadMode => .ok handle.rawSource
  | some .DecompressReadMode =>
      match handle.decompressSource with
      | none => .panicked
      | some d => .ok d

/-- Modelled from the spec: a conforming instance of the opaque
streaming compressor collaborator (the gzip writer is outside this
repository).  It frames the payload between a 2-byte magic and a 4-byte
trailer, which is enough structure for a decompressor constructor to
validate leading bytes. -/
def specCompress (payload : List Nat) : List Nat :=
  [31, 139] ++ payload ++ [0, 0, 0, 0]

/-- Modelled from the spec: the matching opaque decompressor constructor
(the gzip reader is outside this repository).  It fails exactly when the
leading bytes are not the compressed-stream magic, and otherwise yields
the stream of decompressed bytes. -/
def specNewReader (l : List Nat) : Option (List Nat) :=
  if l.take 2 = [31, 139] then some ((l.drop 2).take ((l.drop 2).length - 4))
  else none

/-- The header with its upload timestamp truncated to whole seconds, the
equality the round-trip property is stated modulo. -/
def truncateToSeconds (info : FileHeader) : FileHeader :=
  { info with UploadDate := ⟨info.UploadDate.sec, 0⟩ }

/-- Big-endian value of a byte list, used to reason about the
shift-and-or reassembly loop of `readNumber`. -/
def beVal : List Nat → Nat
  | [] => 0
  | b :: bs => b * 256 ^ bs.length + beVal bs

/-- The test-vector header of the repository test suite:
`{1481834107, 1, "image/png", "Screenshot at todo"}`. -/
def testHeader : FileHeader :=
  ⟨⟨1481834107, 0⟩, 1,
   [105, 109, 97, 103, 101, 47, 112, 110, 103],
   [83, 99, 114, 101, 101, 110, 115, 104, 111, 116, 32, 97, 116, 32, 116, 111, 100, 111]⟩

lemma writeNumber_length (number byteCount : Nat) :
    (writeNumber number byteCount).length = byteCount := by
  simp [writeNumber]

lemma writeNumber_succ (n k : Nat) :
    writeNumber n (k + 1) = (n >>> (8 * k)) % 256 :: writeNumber n k := by
  unfold writeNumber
  rw [List.range_succ_eq_map, List.map_cons, List.map_map]
  congr 1
  apply List.map_congr_left
  intro i _
  simp only [Function.comp_apply, Nat.succ_eq_add_one]
  congr 2
  omega

lemma writeNumber_mem_lt (n k : Nat) : ∀ b ∈ writeNumber n k, b < 256 := by
  intro b hb
  simp only [writeNumber, List.mem_map, List.mem_range] at hb
  obtain ⟨i, _, rfl⟩ := hb
  exact Nat.mod_lt _ (by norm_num)

lemma goRead_append {k : Nat} {a rest : List Nat} (h : a.length = k) :
    goRead k (a ++ rest) = .ok (a, rest) := by
  subst h
  unfold goRead
  rw [if_neg]
  · rw [List.take_left, List.drop_left]
    have hz : a.length - (a ++ rest).length = 0 := by
      simp [List.length_append]
    rw [hz]
    simp
  · rintro ⟨h1, h2⟩
    rw [List.isEmpty_iff] at h1
    have : a = [] := by
      cases a with
      | nil => rfl
      | cons x xs => simp at h1
    subst this
    simp at h2

lemma beVal_lt {bs : List Nat} (h : ∀ b ∈ bs, b < 256) :
    beVal bs < 256 ^ bs.length := by
  induction bs with
  | nil => simp [beVal]
  | cons b bs ih =>
    have hb : b < 256 := h b (by simp)
    have hbs : beVal bs < 256 ^ bs.length := ih fun x hx => h x (by simp [hx])
    calc b * 256 ^ bs.length + beVal bs
        < (b + 1) * 256 ^ bs.length := by
          rw [Nat.add_mul, Nat.one_mul]; omega
      _ ≤ 256 * 256 ^ bs.length := Nat.mul_le_mul_right _ hb
      _ = 256 ^ (b :: bs).length := by rw [List.length_cons, pow_succ]; ring

lemma beVal_writeNumber (n k : Nat) :
    beVal (writeNumber n k) = n % 2 ^ (8 * k) := by
  induction k with
  | zero => simp [writeNumber, beVal, Nat.mod_one]
  | succ k ih =>
    rw [writeNumber_succ]
    simp only [beVal, writeNumber_length, ih]
    have h256 : (256 : Nat) ^ k = 2 ^ (8 * k) := by
      rw [show (256 : Nat) = 2 ^ 8 from rfl, ← pow_mul]
    have hpow : (2 : Nat) ^ (8 * (k + 1)) = 2 ^ (8 * k) * 2 ^ 8 := by
      rw [← pow_add]; ring_nf
    rw [hpow, Nat.mod_mul, Nat.shiftRight_eq_div_pow, h256]
    have h8 : (2 : Nat) ^ 8 = 256 := by norm_num
    rw [h8]
    ring

lemma foldl_or_shift_cons (b : Nat) (bs : List Nat) (A : Nat) :
    (List.range (bs.length + 1)).foldl
      (fun number i => number ||| (((b :: bs).getD i 0) <<< (8 * (bs.length + 1 - i - 1)))) A
    = (List.range bs.length).foldl
      (fun number i => number ||| ((bs.getD i 0) <<< (8 * (bs.length - i - 1))))
      (A ||| (b <<< (8 * bs.length))) := by
  rw [List.range_succ_eq_map, List.foldl_cons, List.foldl_map]
  have hhead : bs.length + 1 - 0 - 1 = bs.length := by omega
  rw [hhead]
  simp only [List.getD_cons_zero]
  congr 1
  funext number i
  simp only [Nat.succ_eq_add_one, List.getD_cons_succ]
  congr 3
  omega

lemma foldl_or_shift_acc (bs : List Nat) (A : Nat) :
    (List.range bs.length).foldl
      (fun number i => number ||| ((bs.getD i 0) <<< (8 * (bs.length - i - 1)))) A
    = A ||| (List.range bs.length).foldl
      (fun number i => number ||| ((bs.getD i 0) <<< (8 * (bs.length - i - 1)))) 0 := by
  induction bs generalizing A with
  | nil => simp
  | cons b bs ih =>
    rw [show (b :: bs).length = bs.length + 1 from rfl]
    rw [foldl_or_shift_cons, foldl_or_shift_cons]
    rw [ih (A ||| b <<< (8 * bs.length)), ih (0 ||| b <<< (8 * bs.length))]
    rw [Nat.zero_or, Nat.or_assoc]

lemma foldl_or_shift_beVal {bs : List Nat} (h : ∀ b ∈ bs, b < 256) :
    (List.range bs.length).foldl
      (fun number i => number ||| ((bs.getD i 0) <<< (8 * (bs.length - i - 1)))) 0
    = beVal bs := by
  induction bs with
  | nil => simp [beVal]
  | cons b bs ih =>
    rw [show (b :: bs).length = bs.length + 1 from rfl]
    rw [foldl_or_shift_cons, foldl_or_shift_acc, ih fun x hx => h x (by simp [hx])]
    have hlt : beVal bs < 2 ^ (8 * bs.length) := by
      have h256 : (256 : Nat) ^ bs.length = 2 ^ (8 * bs.length) := by
        rw [show (256 : Nat) = 2 ^ 8 from rfl, ← pow_mul]
      rw [← h256]
      exact beVal_lt fun x hx => h x (by simp [hx])
    rw [Nat.zero_or, Nat.shiftLeft_eq]
    rw [show b * 2 ^ (8 * bs.length) = 2 ^ (8 * bs.length) * b by ring]
    rw [← Nat.mul_add_lt_is_or hlt b]
    have h256 : (256 : Nat) ^ bs.length = 2 ^ (8 * bs.length) := by
      rw [show (256 : Nat) = 2 ^ 8 from rfl, ← pow_mul]
    simp only [beVal, h256]
    ring

lemma readNumber_writeNumber (n k : Nat) (rest : List Nat) :
    readNumber k (writeNumber n k ++ rest) = .ok (n % 2 ^ (8 * k), rest) := by
  unfold readNumber
  rw [goRead_append (writeNumber_length n k)]
  dsimp only
  have h1 := foldl_or_shift_beVal (writeNumber_mem_lt n k)
  rw [writeNumber_length] at h1
  rw [h1, beVal_writeNumber]

lemma readLPS_writeLPS (s rest : List Nat) (h : s.length < 2 ^ 16) :
    readLengthPrefixedString (writeLengthPrefixedString s ++ rest)
      = .ok (s, 2 + s.length, rest) := by
  unfold readLengthPrefixedString writeLengthPrefixedString
  rw [List.append_assoc, readNumber_writeNumber]
  dsimp only
  have hm : s.length % 2 ^ (8 * 2) = s.length := by
    apply Nat.mod_eq_of_lt
    norm_num
    omega
  rw [hm, goRead_append rfl]

lemma headerBuffer_length (info : FileHeader) :
    (headerBuffer info).length
      = 10 + info.MimeType.length + info.OriginalName.length := by
  simp [headerBuffer, writeLengthPrefixedString, List.length_append, writeNumber_length]
  omega

lemma wrap64_small {v : Nat} (h : v < 2 ^ 63) : wrap64 (v : Int) = (v : Int) := by
  unfold wrap64
  have e1 : (2 : Int) ^ 63 = 9223372036854775808 := by norm_num
  have e2 : (2 : Int) ^ 64 = 18446744073709551616 := by norm_num
  have e3 : (2 : Nat) ^ 63 = 9223372036854775808 := by norm_num
  rw [e1, e2]
  rw [e3] at h
  omega

lemma stored_seconds_in_range {t : GoTime} (h0 : 0 ≤ t.sec) (h1 : t.sec < 9223372036)
    (h2 : 0 ≤ t.nsec) (h3 : t.nsec < 1000000000) :
    goUint64 ((GoTime.UnixNano t).tdiv 1000000000) = t.sec.toNat
      ∧ t.sec.toNat < 2 ^ 40 := by
  obtain ⟨s, n⟩ := t
  simp only at h0 h1 h2 h3
  have e63 : (2 : Int) ^ 63 = 9223372036854775808 := by norm_num
  have e64 : (2 : Int) ^ 64 = 18446744073709551616 := by norm_num
  have hx0 : 0 ≤ s * 1000000000 + n := by omega
  have hw : wrap64 (s * 1000000000 + n) = s * 1000000000 + n := by
    unfold wrap64
    rw [e63, e64]
    omega
  have ht : (s * 1000000000 + n).tdiv 1000000000 = s := by
    rw [Int.tdiv_eq_ediv hx0 (by norm_num)]
    omega
  simp only [GoTime.UnixNano, hw, ht, goUint64]
  rw [e64]
  constructor
  · omega
  · have e40 : (2 : Nat) ^ 40 = 1099511627776 := by norm_num
    rw [e40]
    omega

lemma ReadFileHeader_WriteFile (compress : List Nat → List Nat) (info : FileHeader)
    (s : List Nat)
    (h16 : 10 + info.MimeType.length + info.OriginalName.length < 2 ^ 16) :
    ReadFileHeader ((WriteFile compress (some ()) info (some s)).2)
      = .ok ({ UploadDate :=
                 ⟨(goUint64 ((GoTime.UnixNano info.UploadDate).tdiv 1000000000)
                     % 2 ^ 40 : Nat), 0⟩,
               ApiKeyID := info.ApiKeyID,
               MimeType := info.MimeType,
               OriginalName := info.OriginalName }, 2, compress s) := by
  have hm : info.MimeType.length < 2 ^ 16 := by omega
  have hn : info.OriginalName.length < 2 ^ 16 := by omega
  have hhb : (headerBuffer info).length < 2 ^ 16 := by
    rw [headerBuffer_length]; omega
  have hlen : (headerBuffer info).length % 2 ^ (8 * 2) = (headerBuffer info).length := by
    apply Nat.mod_eq_of_lt
    norm_num
    omega
  unfold WriteFile
  dsimp only
  unfold ReadFileHeader
  simp only [List.append_assoc]
  rw [goRead_append (show ([0xFA, 0xFA] : List Nat).length = 2 from rfl)]
  dsimp only
  rw [if_neg (by simp)]
  rw [readNumber_writeNumber]
  dsimp only
  rw [hlen, goRead_append rfl]
  dsimp only
  unfold headerBuffer
  simp only [List.append_assoc]
  rw [readNumber_writeNumber]
  dsimp only
  rw [List.singleton_append]
  dsimp only [bufferReadByte]
  rw [readLPS_writeLPS _ _ hm]
  dsimp only
  conv_lhs => rw [← List.append_nil (writeLengthPrefixedString info.OriginalName)]
  rw [readLPS_writeLPS _ _ hn]
  dsimp only
  rw [show (8 : Nat) * 5 = 40 from rfl]
  have hv : goUint64 ((GoTime.UnixNano info.UploadDate).tdiv 1000000000) % 2 ^ 40
      < 2 ^ 63 := by
    have h1 : goUint64 ((GoTime.UnixNano info.UploadDate).tdiv 1000000000) % 2 ^ 40
        < 2 ^ 40 := Nat.mod_lt _ (by positivity)
    have h2 : (2 : Nat) ^ 40 ≤ 2 ^ 63 := Nat.pow_le_pow_right (by norm_num) (by norm_num)
    omega
  rw [wrap64_small hv]
  simp [List.length_append]

lemma ReadFileHeader_roundTrip (compress : List Nat → List Nat) (info : FileHeader)
    (B : List Nat)
    (hs0 : 0 ≤ info.UploadDate.sec) (hs1 : info.UploadDate.sec < 9223372036)
    (hn0 : 0 ≤ info.UploadDate.nsec) (hn1 : info.UploadDate.nsec < 1000000000)
    (h16 : 10 + info.MimeType.length + info.OriginalName.length < 2 ^ 16) :
    ReadFileHeader ((WriteFile compress (some ()) info (some B)).2)
      = .ok (truncateToSeconds info, 2, compress B) := by
  rw [ReadFileHeader_WriteFile compress info B h16]
  obtain ⟨h1, h2⟩ := stored_seconds_in_range hs0 hs1 hn0 hn1
  rw [h1, Nat.mod_eq_of_lt h2, Int.toNat_of_nonneg hs0]
  unfold truncateToSeconds
  rfl

lemma ReadFile_WriteFile (compress : List Nat → List Nat)
    (newReader : List Nat → Option (List Nat)) (info : FileHeader) (B : List Nat)
    (hs0 : 0 ≤ info.UploadDate.sec) (hs1 : info.UploadDate.sec < 9223372036)
    (hn0 : 0 ≤ info.UploadDate.nsec) (hn1 : info.UploadDate.nsec < 1000000000)
    (h16 : 10 + info.MimeType.length + info.OriginalName.length < 2 ^ 16) :
    ReadFile newReader (some ((WriteFile compress (some ()) info (some B)).2))
      = .ok ⟨truncateToSeconds info, none, compress B, some .RawReadMode⟩ := by
  unfold ReadFile
  dsimp only
  rw [ReadFileHeader_roundTrip compress info B hs0 hs1 hn0 hn1 h16]
  rfl

/-- C1 counterexample: for the header with upload second `-1` (and empty
strings, api key 1) and the empty payload, writing the container with a
conforming compressor and reading it back yields a header whose upload
second is `1099511627775`, not the original second `-1` (the negative
`UnixNano` value is converted to `uint`, so the 5 stored bytes are all
`0xFF`); the claim that every header round-trips modulo whole-second
truncation is therefore false. -/
theorem c1_counterexample :
    ReadFile specNewReader
        (some ((WriteFile specCompress (some ()) ⟨⟨-1, 0⟩, 1, [], []⟩ (some [])).2))
      = .ok ⟨⟨⟨1099511627775, 0⟩, 1, [], []⟩, none, [31, 139, 0, 0, 0, 0],
             some .RawReadMode⟩
    ∧ truncateToSeconds ⟨⟨-1, 0⟩, 1, [], []⟩ = ⟨⟨-1, 0⟩, 1, [], []⟩
    ∧ (⟨⟨1099511627775, 0⟩, 1, [], []⟩ : FileHeader) ≠ ⟨⟨-1, 0⟩, 1, [], []⟩ := by
  refine ⟨by decide, by decide, by decide⟩

/-- C1 (amended): for every conforming compressor and decompressor
constructor (`newReader (compress B) = some B`), every header whose
upload timestamp is normalized, nonnegative and below `9223372036`
seconds (so that the `int64` nanosecond computation cannot overflow),
whose api key fits a `uint8` and whose encoded header fits the 16-bit
length field, and every payload `B`: writing the container and reading
it back yields a handle whose header equals the original with the
timestamp truncated to whole seconds, and switching the handle to
decompressed mode yields exactly the bytes `B`. -/
theorem c1_roundTrip (compress : List Nat → List Nat)
    (newReader : List Nat → Option (List Nat)) (info : FileHeader) (B : List Nat)
    (hs0 : 0 ≤ info.UploadDate.sec) (hs1 : info.UploadDate.sec < 9223372036)
    (hn0 : 0 ≤ info.UploadDate.nsec) (hn1 : info.UploadDate.nsec < 1000000000)
    (hkey : info.ApiKeyID < 256)
    (h16 : 10 + info.MimeType.length + info.OriginalName.length < 2 ^ 16)
    (hnr : newReader (compress B) = some B) :
    ReadFile newReader (some ((WriteFile compress (some ()) info (some B)).2))
        = .ok ⟨truncateToSeconds info, none, compress B, some .RawReadMode⟩
    ∧ FileHandle.SetReadMode newReader
          ⟨truncateToSeconds info, none, compress B, some .RawReadMode⟩
          .DecompressReadMode
        = .ok ⟨truncateToSeconds info, some B, compress B, some .DecompressReadMode⟩
    ∧ FileHandle.ReadAll
          ⟨truncateToSeconds info, some B, compress B, some .DecompressReadMode⟩
        = .ok B := by
  refine ⟨ReadFile_WriteFile compress newReader info B hs0 hs1 hn0 hn1 h16, ?_, rfl⟩
  unfold FileHandle.SetReadMode
  dsimp only
  rw [hnr]

/-- C1 witness: the amended round trip instantiated with the
spec-modelled compressor pair, the test-vector header of the repository
test suite, and the payload `[1, 2, 3]`. -/
theorem c1_roundTrip_witness :
    specNewReader (specCompress [1, 2, 3]) = some [1, 2, 3]
    ∧ ReadFile specNewReader
          (some ((WriteFile specCompress (some ()) testHeader (some [1, 2, 3])).2))
        = .ok ⟨truncateToSeconds testHeader, none, specCompress [1, 2, 3],
               some .RawReadMode⟩ := by
  have h := c1_roundTrip specCompress specNewReader testHeader [1, 2, 3]
    (by decide) (by decide) (by decide) (by decide) (by decide) (by decide) (by decide)
  exact ⟨by decide, h.1⟩

/-- C2: the magic check of the source accepts any input whose first two
bytes are merely equal (the condition is
`twoBytes[0] != twoBytes[1] && twoBytes[0] != 0xFA`): on an input that
begins `0x00 0x00` — followed by a well-formed header frame —
`read_container` succeeds completely and returns a handle with a parsed
header, instead of failing with the bad-magic error the claim
requires. -/
theorem c2_magic_accepts_equal_bytes :
    ReadFile specNewReader (some [0, 0, 0, 10, 0, 0, 0, 0, 0, 1, 0, 0, 0, 0])
      = .ok ⟨⟨⟨0, 0⟩, 1, [], []⟩, none, [], some .RawReadMode⟩
    ∧ (0 : Nat) ≠ 0xFA := by
  refine ⟨by decide, by decide⟩

/-- C3: on the zero header and the empty payload, with a conforming
compressor that emits 6 bytes for the empty stream, `write_container`
returns 14 — the marker (2) plus the length field (2) plus the header
bytes (10) plus the `io.Copy` count of uncompressed payload bytes (0) —
while the destination actually receives 20 bytes; the returned total
therefore counts the uncompressed payload size, not the compressed
bytes emitted. -/
theorem c3_nWritten_counts_uncompressed :
    WriteFile specCompress (some ()) ⟨⟨0, 0⟩, 0, [], []⟩ (some [])
      = (.ok 14,
         [250, 250, 0, 10, 0, 0, 0, 0, 0, 0, 0, 0, 0, 0, 31, 139, 0, 0, 0, 0])
    ∧ ([250, 250, 0, 10, 0, 0, 0, 0, 0, 0, 0, 0, 0, 0, 31, 139, 0, 0, 0, 0]
        : List Nat).length = 20
    ∧ (14 : Nat) ≠ 20 := by
  refine ⟨by decide, by decide, by decide⟩

/-- C4 counterexample: on a handle in raw mode over the bytes
`[0, 0]` — which the decompressor constructor rejects — the first switch
to decompressed mode aborts the program (`panic(err)` in the source,
whose `SetReadMode` has no error result at all), instead of returning a
`DecompressionInitFailure` error value as the claim states. -/
theorem c4_counterexample :
    FileHandle.SetReadMode specNewReader
        ⟨⟨⟨0, 0⟩, 0, [], []⟩, none, [0, 0], some .RawReadMode⟩ .DecompressReadMode
      = .panicked := by
  decide

/-- C4 (amended): whenever no decompressor exists yet and the
decompressor constructor rejects the remaining raw bytes, the failure
does surface at the `set_mode` call itself — but as a program abort
(panic), not as a returned error; nothing is deferred to the first
read. -/
theorem c4_initFailure_panics (newReader : List Nat → Option (List Nat))
    (handle : FileHandle) (h1 : handle.decompressSource = none)
    (h2 : newReader handle.rawSource = none) :
    FileHandle.SetReadMode newReader handle .DecompressReadMode = .panicked := by
  unfold FileHandle.SetReadMode
  rw [h1, h2]

/-- C4 witness: the amended statement instantiated at the raw handle
over `[0, 0]` with the spec-modelled decompressor constructor. -/
theorem c4_initFailure_witness :
    (⟨⟨⟨0, 0⟩, 0, [], []⟩, none, [0, 0], some .RawReadMode⟩
        : FileHandle).decompressSource = none
    ∧ specNewReader [0, 0] = none
    ∧ FileHandle.SetReadMode specNewReader
        ⟨⟨⟨0, 0⟩, 0, [], []⟩, none, [0, 0], some .RawReadMode⟩ .DecompressReadMode
      = .panicked :=
  ⟨rfl, by decide,
   c4_initFailure_panics specNewReader
     ⟨⟨⟨0, 0⟩, 0, [], []⟩, none, [0, 0], some .RawReadMode⟩ rfl (by decide)⟩

/-- C5: closing a handle that never left raw mode is NOT safe — the
source unconditionally calls `Close` on the nil `*gzip.Reader`, which
faults — and when a decompressor does exist its close error is
discarded, not reported: with a failing decompressor close and a
succeeding raw close, `close()` returns nil rather than the first
error. -/
theorem c5_close_faults_on_raw_handle :
    (∀ decompCloseErr rawCloser,
        FileHandle.Close ⟨⟨⟨0, 0⟩, 0, [], []⟩, none, [], some .RawReadMode⟩
            decompCloseErr rawCloser
          = .panicked)
    ∧ FileHandle.Close ⟨⟨⟨0, 0⟩, 0, [], []⟩, some [], [], some .DecompressReadMode⟩
          (some .eof) (some none)
        = .ok none :=
  ⟨fun _ _ => rfl, rfl⟩

/-- C6: when a declared length exceeds the available bytes but at least
one byte is present, decoding does NOT fail: `readNumber` asked for 2
bytes of the 1-byte stream `[0x05]` ignores the short read count and
silently returns `0x0500 = 1280`, and `readLengthPrefixedString` on
`[0, 5, 65]` (declared length 5, one byte available) silently returns a
5-byte string padded with zero bytes. -/
theorem c6_shortRead_silently_zero_pads :
    readNumber 2 [5] = .ok (1280, [])
    ∧ readLengthPrefixedString [0, 5, 65] = .ok ([65, 0, 0, 0, 0], 7, []) := by
  refine ⟨by decide, by decide⟩

/-- C7: after any successful switch to decompressed mode, (i) a second
switch to decompressed mode returns the very same handle state for ANY
decompressor constructor — so no second decompressor is ever
constructed; (ii) switching to raw mode only redirects the current
source and retains the previously built decompressor; and (iii)
switching back to decompressed mode restores exactly the earlier state,
including the position of the decompressed stream — reads continue where
they left off, with no restart. -/
theorem c7_idempotent_mode_switch (newReader : List Nat → Option (List Nat))
    (h h1 : FileHandle)
    (hset : FileHandle.SetReadMode newReader h .DecompressReadMode = .ok h1) :
    (∀ newReader2 : List Nat → Option (List Nat),
        FileHandle.SetReadMode newReader2 h1 .DecompressReadMode = .ok h1)
    ∧ (∀ newReader2 : List Nat → Option (List Nat),
        FileHandle.SetReadMode newReader2 h1 .RawReadMode
          = .ok { h1 with currentSource := some .RawReadMode })
    ∧ (∀ newReader2 : List Nat → Option (List Nat),
        FileHandle.SetReadMode newReader2
            { h1 with currentSource := some .RawReadMode } .DecompressReadMode
          = .ok h1) := by
  unfold FileHandle.SetReadMode at hset ⊢
  rcases hd : h.decompressSource with _ | d
  · rw [hd] at hset
    rcases hn : newReader h.rawSource with _ | d2
    · rw [hn] at hset
      exact absurd hset (by simp)
    · rw [hn] at hset
      injection hset with heq
      subst heq
      exact ⟨fun _ => rfl, fun _ => rfl, fun _ => rfl⟩
  · rw [hd] at hset
    injection hset with heq
    subst heq
    refine ⟨fun _ => ?_, fun _ => ?_, fun _ => ?_⟩ <;> simp [hd]

/-- C7 witness: the mode-switch theorem instantiated on a raw handle
over the spec-modelled compression of `[7]`; the repeated switches are
exercised with the constructor `fun _ => none` that would fail (indeed
abort) if it were ever consulted, showing that no second construction
happens. -/
theorem c7_idempotent_mode_switch_witness :
    FileHandle.SetReadMode specNewReader
        ⟨⟨⟨0, 0⟩, 0, [], []⟩, none, [31, 139, 7, 0, 0, 0, 0], some .RawReadMode⟩
        .DecompressReadMode
      = .ok ⟨⟨⟨0, 0⟩, 0, [], []⟩, some [7], [31, 139, 7, 0, 0, 0, 0],
             some .DecompressReadMode⟩
    ∧ FileHandle.SetReadMode (fun _ => none)
        ⟨⟨⟨0, 0⟩, 0, [], []⟩, some [7], [31, 139, 7, 0, 0, 0, 0],
         some .DecompressReadMode⟩ .DecompressReadMode
      = .ok ⟨⟨⟨0, 0⟩, 0, [], []⟩, some [7], [31, 139, 7, 0, 0, 0, 0],
             some .DecompressReadMode⟩
    ∧ FileHandle.SetReadMode (fun _ => none)
        ⟨⟨⟨0, 0⟩, 0, [], []⟩, some [7], [31, 139, 7, 0, 0, 0, 0],
         some .DecompressReadMode⟩ .RawReadMode
      = .ok ⟨⟨⟨0, 0⟩, 0, [], []⟩, some [7], [31, 139, 7, 0, 0, 0, 0],
             some .RawReadMode⟩
    ∧ FileHandle.SetReadMode (fun _ => none)
        ⟨⟨⟨0, 0⟩, 0, [], []⟩, some [7], [31, 139, 7, 0, 0, 0, 0],
         some .RawReadMode⟩ .DecompressReadMode
      = .ok ⟨⟨⟨0, 0⟩, 0, [], []⟩, some [7], [31, 139, 7, 0, 0, 0, 0],
             some .DecompressReadMode⟩ := by
  have h := c7_idempotent_mode_switch specNewReader
    ⟨⟨⟨0, 0⟩, 0, [], []⟩, none, [31, 139, 7, 0, 0, 0, 0], some .RawReadMode⟩
    ⟨⟨⟨0, 0⟩, 0, [], []⟩, some [7], [31, 139, 7, 0, 0, 0, 0], some .DecompressReadMode⟩
    (by decide)
  exact ⟨by decide, h.1 (fun _ => none), h.2.1 (fun _ => none), h.2.2 (fun _ => none)⟩

/-- C8: for every conforming compressor, every in-range header (as in
the round-trip theorem) and every payload, `read_container` on a valid
container returns the handle in raw mode with NO decompressor
constructed (`decompressSource = none` — no decompression work happens
until `set_mode`), and reading the handle in raw mode yields exactly the
trailing compressed-payload region of the container. -/
theorem c8_lazy_raw_handle (compress : List Nat → List Nat)
    (newReader : List Nat → Option (List Nat)) (info : FileHeader) (B : List Nat)
    (hs0 : 0 ≤ info.UploadDate.sec) (hs1 : info.UploadDate.sec < 9223372036)
    (hn0 : 0 ≤ info.UploadDate.nsec) (hn1 : info.UploadDate.nsec < 1000000000)
    (h16 : 10 + info.MimeType.length + info.OriginalName.length < 2 ^ 16) :
    ReadFile newReader (some ((WriteFile compress (some ()) info (some B)).2))
        = .ok ⟨truncateToSeconds info, none, compress B, some .RawReadMode⟩
    ∧ FileHandle.ReadAll
          ⟨truncateToSeconds info, none, compress B, some .RawReadMode⟩
        = .ok (compress B) :=
  ⟨ReadFile_WriteFile compress newReader info B hs0 hs1 hn0 hn1 h16, rfl⟩

/-- C8 witness: the lazy-raw-handle theorem instantiated with the
spec-modelled compressor, the test-vector header and payload
`[9, 9, 9]`; the decompressor constructor argument is `fun _ => none`,
which would fail if `read_container` consulted it. -/
theorem c8_lazy_raw_handle_witness :
    ReadFile (fun _ => none)
        (some ((WriteFile specCompress (some ()) testHeader (some [9, 9, 9])).2))
      = .ok ⟨truncateToSeconds testHeader, none, specCompress [9, 9, 9],
             some .RawReadMode⟩ :=
  (c8_lazy_raw_handle specCompress (fun _ => none) testHeader [9, 9, 9]
    (by decide) (by decide) (by decide) (by decide) (by decide)).1

/-- C9: `write_container` with a nil destination or a nil source, and
`read_container` with a nil source, fail immediately with the
invalid-argument error; the emitted byte stream is empty, so no stream
was touched (in the source the nil check precedes the first read and
the first write). -/
theorem c9_null_rejection (compress : List Nat → List Nat)
    (newReader : List Nat → Option (List Nat)) (info : FileHeader)
    (src : Option (List Nat)) :
    WriteFile compress none info src = (.error .invalidArgument, [])
    ∧ WriteFile compress (some ()) info none = (.error .invalidArgument, [])
    ∧ ReadFile newReader none = .err .invalidArgument := by
  refine ⟨?_, rfl, rfl⟩
  cases src <;> rfl

/-- C10 counterexample: the upload second `2 ^ 40 - 1 = 1099511627775`
lies in `[0, 2 ^ 40)`, yet the container stores and returns the second
`1092218611129` for it: `UnixNano()` overflows `int64` long before
`2 ^ 40` seconds, so the stored value is not in general the seconds
count reduced modulo `2 ^ 40`, and the claimed round trip over all of
`[0, 2 ^ 40)` fails. -/
theorem c10_counterexample :
    ReadFileHeader ((WriteFile specCompress (some ())
        ⟨⟨1099511627775, 0⟩, 0, [], []⟩ (some [])).2)
      = .ok (⟨⟨1092218611129, 0⟩, 0, [], []⟩, 2, [31, 139, 0, 0, 0, 0])
    ∧ (1092218611129 : Int) ≠ 1099511627775 := by
  refine ⟨by decide, by decide⟩

/-- C10 (amended): the stored 5-byte value is
`uint64(UnixNano() / 1e9)` truncated to 40 bits, which equals the
whole-seconds value exactly when the nanosecond computation does not
overflow `int64`: for every normalized timestamp with seconds in
`[0, 9223372036)` — which covers all dates up to year ~2106 and indeed
up to 2262 — the encoder stores exactly the seconds count, the decoder
recovers exactly the stored 5-byte value, and the timestamp round-trips
to the second through the container. -/
theorem c10_timestamp_encoding (compress : List Nat → List Nat) (info : FileHeader)
    (B : List Nat)
    (hs0 : 0 ≤ info.UploadDate.sec) (hs1 : info.UploadDate.sec < 9223372036)
    (hn0 : 0 ≤ info.UploadDate.nsec) (hn1 : info.UploadDate.nsec < 1000000000)
    (h16 : 10 + info.MimeType.length + info.OriginalName.length < 2 ^ 16) :
    goUint64 ((GoTime.UnixNano info.UploadDate).tdiv 1000000000)
        = info.UploadDate.sec.toNat
    ∧ info.UploadDate.sec.toNat < 2 ^ 40
    ∧ ReadFileHeader ((WriteFile compress (some ()) info (some B)).2)
        = .ok (truncateToSeconds info, 2, compress B) := by
  obtain ⟨h1, h2⟩ := stored_seconds_in_range hs0 hs1 hn0 hn1
  exact ⟨h1, h2, ReadFileHeader_roundTrip compress info B hs0 hs1 hn0 hn1 h16⟩

/-- C10 witness: the amended timestamp statement instantiated with the
spec-modelled compressor, the test-vector header (upload second
1481834107) and payload `[4, 2]`. -/
theorem c10_timestamp_encoding_witness :
    goUint64 ((GoTime.UnixNano testHeader.UploadDate).tdiv 1000000000) = 1481834107
    ∧ ReadFileHeader ((WriteFile specCompress (some ()) testHeader (some [4, 2])).2)
        = .ok (truncateToSeconds testHeader, 2, specCompress [4, 2]) := by
  have h := c10_timestamp_encoding specCompress testHeader [4, 2]
    (by decide) (by decide) (by decide) (by decide) (by decide)
  exact ⟨h.1, h.2.2⟩
